import Mathlib

/-!
Verification of the Altair Finance dashboard (`src/app.py`) against its
natural-language specification.

Decimals are modelled as rationals (`ℚ`), so all arithmetic is exact.
The Portfolio Aggregator (`utils/portfolio_manager.py`) is not part of the
released sources; its operations are modelled from the spec where noted.
The dashboard control flow of `main()` in `src/app.py` is embedded as pure
functions from fetch outcomes to lists of render events.
-/

/-- A portfolio holding, from the spec data model (§3) and the row fields
read in `src/app.py` lines 41-46. -/
structure Holding where
  symbol : String
  quantity : ℚ
  avg_cost : ℚ
  deriving Repr, DecidableEq

/-- Derived summary record, from the spec data model (§3). -/
structure PortfolioSummary where
  total_value : ℚ
  total_cost : ℚ
  holdings_count : ℕ
  deriving Repr, DecidableEq

/-- Error taxonomy of the aggregator core (spec §7). -/
inductive AggError where
  | InvalidReferenceError
  deriving Repr, DecidableEq

/-- Modelled from the spec: `valuate` of the Portfolio Aggregator
(`utils/portfolio_manager.py`, absent from `src/`).  Per §4.1: a holding with
an available price contributes `price × quantity` to `total_value`; a holding
without one is skipped from the value sum; every holding contributes
`avg_cost × quantity` to `total_cost` and is counted in `holdings_count`. -/
def valuate (holdings : List Holding) (price_lookup : String → Option ℚ) :
    PortfolioSummary :=
  { total_value :=
      (holdings.filterMap
        (fun h => (price_lookup h.symbol).map (fun p => p * h.quantity))).sum
  , total_cost := (holdings.map (fun h => h.avg_cost * h.quantity)).sum
  , holdings_count := holdings.length }

/-- Profit/loss computation, embedded from `src/app.py` lines 174-175:
`profit_loss = total_value - total_cost` and
`profit_loss_pct = (profit_loss / total_cost) * 100 if total_cost > 0 else 0`. -/
def profit_loss (s : PortfolioSummary) : ℚ × ℚ :=
  let absolute := s.total_value - s.total_cost
  let percent := if s.total_cost > 0 then absolute / s.total_cost * 100 else 0
  (absolute, percent)

/-- Modelled from the spec: `change_percent` of the Portfolio Aggregator
(`utils/portfolio_manager.py`, absent from `src/`).  Per §4.1:
`(current − reference) / reference × 100`, raising `InvalidReferenceError`
when `reference == 0`. -/
def change_percent (current reference : ℚ) : Except AggError ℚ :=
  if reference = 0 then Except.error AggError.InvalidReferenceError
  else Except.ok ((current - reference) / reference * 100)

/-- The inline percentage-change arithmetic of the dashboard widgets
(`src/app.py` lines 82-83 and 129-130): `change / prev * 100`.  The sources
are floating-point; at `prev = 0` the Python code produces a non-numeric
float (inf/nan) rather than an exact value, modelled here as `none`. -/
def pctChange (change prev : ℚ) : Option ℚ :=
  if prev = 0 then none else some (change / prev * 100)

/-- Claim C1: `change_percent` returns `(current − reference)/reference × 100`
and fails with `InvalidReferenceError` when the reference is zero; the
intraday-change arithmetic of the dashboard widgets computes the same value
whenever the reference is nonzero. -/
theorem change_percent_formula (current reference : ℚ) :
    change_percent current 0 = Except.error AggError.InvalidReferenceError ∧
    (reference ≠ 0 →
      change_percent current reference =
        Except.ok ((current - reference) / reference * 100) ∧
      pctChange (current - reference) reference =
        some ((current - reference) / reference * 100)) := by
  refine ⟨by simp [change_percent], fun h => ⟨?_, ?_⟩⟩
  · simp [change_percent, h]
  · simp [pctChange, h]

/-- Witness for C1 at `current = 110`, `reference = 100`. -/
theorem change_percent_formula_witness :
    change_percent 110 0 = Except.error AggError.InvalidReferenceError ∧
    (change_percent 110 100 = Except.ok 10 ∧ pctChange 10 100 = some 10) := by
  have h := change_percent_formula 110 100
  refine ⟨h.1, ?_⟩
  have h2 := h.2 (by norm_num)
  constructor
  · rw [h2.1]; norm_num
  · have := h2.2; rw [show (110 : ℚ) - 100 = 10 by norm_num] at this
    rw [this]; norm_num

/-- Claim C3: `profit_loss` returns `absolute = total_value − total_cost`;
`percent = absolute / total_cost × 100` when `total_cost > 0`, else `0`;
in particular `total_cost = 0` yields percent `0` with no division error. -/
theorem profit_loss_spec (s : PortfolioSummary) :
    (profit_loss s).1 = s.total_value - s.total_cost ∧
    (s.total_cost > 0 →
      (profit_loss s).2 = (s.total_value - s.total_cost) / s.total_cost * 100) ∧
    (s.total_cost = 0 → (profit_loss s).2 = 0) := by
  refine ⟨rfl, fun h => ?_, fun h => ?_⟩
  · simp [profit_loss, h]
  · simp [profit_loss, h]

/-- Witness for C3 on the spec §8 scenario summary
(`total_value = 1500`, `total_cost = 2000`) and on a zero-cost summary. -/
theorem profit_loss_spec_witness :
    (profit_loss ⟨1500, 2000, 2⟩).1 = -500 ∧
    (profit_loss ⟨1500, 2000, 2⟩).2 = -25 ∧
    (profit_loss ⟨1500, 0, 2⟩).2 = 0 := by
  refine ⟨?_, ?_, ?_⟩
  · rw [(profit_loss_spec ⟨1500, 2000, 2⟩).1]; norm_num
  · rw [(profit_loss_spec ⟨1500, 2000, 2⟩).2.1 (by norm_num)]; norm_num
  · exact (profit_loss_spec ⟨1500, 0, 2⟩).2.2 rfl

/-- Claim C2: inserting a holding whose symbol has no available price leaves
`total_value` unchanged, adds its `avg_cost × quantity` to `total_cost`, and
adds one to `holdings_count`. -/
theorem valuate_priceless_holding (pre post : List Holding) (h : Holding)
    (pl : String → Option ℚ) (hnone : pl h.symbol = none) :
    valuate (pre ++ h :: post) pl =
      { total_value := (valuate (pre ++ post) pl).total_value
      , total_cost :=
          (valuate (pre ++ post) pl).total_cost + h.avg_cost * h.quantity
      , holdings_count := (valuate (pre ++ post) pl).holdings_count + 1 } := by
  simp only [valuate, List.filterMap_append, List.filterMap_cons, hnone,
    Option.map_none', List.map_append, List.map_cons, List.sum_append,
    List.sum_cons, List.length_append, List.length_cons,
    PortfolioSummary.mk.injEq]
  refine ⟨trivial, by ring, by omega⟩

/-- Witness for C2: one priceless holding among two.  With
holdings `[{AAPL, 10, 100}, {TSLA, 5, 200}]` and only AAPL priced at 150,
the count still includes TSLA, the cost includes TSLA, and the value
excludes TSLA (the spec §8 scenario). -/
theorem valuate_priceless_holding_witness :
    (fun s => if s = "AAPL" then some (150 : ℚ) else none) "TSLA" = none ∧
    valuate [⟨"AAPL", 10, 100⟩, ⟨"TSLA", 5, 200⟩]
        (fun s => if s = "AAPL" then some 150 else none) =
      { total_value :=
          (valuate [⟨"AAPL", 10, 100⟩]
            (fun s => if s = "AAPL" then some 150 else none)).total_value
      , total_cost :=
          (valuate [⟨"AAPL", 10, 100⟩]
            (fun s => if s = "AAPL" then some 150 else none)).total_cost +
            200 * 5
      , holdings_count :=
          (valuate [⟨"AAPL", 10, 100⟩]
            (fun s => if s = "AAPL" then some 150 else none)).holdings_count
            + 1 } := by
  refine ⟨by decide, ?_⟩
  exact valuate_priceless_holding [⟨"AAPL", 10, 100⟩] []
    ⟨"TSLA", 5, 200⟩ (fun s => if s = "AAPL" then some 150 else none)
    (by decide)

/-- Claim C4: `valuate` is a pure function of its explicit inputs: the result
depends only on the holdings sequence and on the prices the lookup assigns to
the holdings' own symbols, so two calls with pointwise-agreeing inputs return
the same summary. -/
theorem valuate_depends_only_on_inputs (holdings : List Holding)
    (p1 p2 : String → Option ℚ)
    (hagree : ∀ h ∈ holdings, p1 h.symbol = p2 h.symbol) :
    valuate holdings p1 = valuate holdings p2 := by
  induction holdings with
  | nil => rfl
  | cons h t ih =>
      have hh := hagree h (List.mem_cons_self h t)
      have ht := ih (fun x hx => hagree x (List.mem_cons_of_mem h hx))
      simp only [valuate, List.filterMap_cons, PortfolioSummary.mk.injEq] at *
      rw [hh]
      cases p2 h.symbol <;> simp_all

/-- Witness for C4: two lookups that agree on the held symbol but differ
elsewhere give the same summary. -/
theorem valuate_depends_only_on_inputs_witness :
    valuate [⟨"AAPL", 10, 100⟩] (fun s => if s = "AAPL" then some 150 else none)
      = valuate [⟨"AAPL", 10, 100⟩] (fun _ => some 150) := by
  exact valuate_depends_only_on_inputs [⟨"AAPL", 10, 100⟩]
    (fun s => if s = "AAPL" then some 150 else none) (fun _ => some 150)
    (by intro h hm; fin_cases hm; decide)

/-- Claim C5: on a non-empty holdings sequence whose every symbol has an
available price, `total_value` is exactly the sum of `price × quantity` and
`total_cost` exactly the sum of `avg_cost × quantity`. -/
theorem valuate_all_prices_available (holdings : List Holding)
    (pl : String → Option ℚ) (prices : String → ℚ)
    (hne : holdings ≠ [])
    (hall : ∀ h ∈ holdings, pl h.symbol = some (prices h.symbol)) :
    (valuate holdings pl).total_value =
      (holdings.map (fun h => prices h.symbol * h.quantity)).sum ∧
    (valuate holdings pl).total_cost =
      (holdings.map (fun h => h.avg_cost * h.quantity)).sum := by
  refine ⟨?_, rfl⟩
  clear hne
  induction holdings with
  | nil => rfl
  | cons h t ih =>
      have hh := hall h (List.mem_cons_self h t)
      have ht := ih (fun x hx => hall x (List.mem_cons_of_mem h hx))
      simp only [valuate, List.filterMap_cons, hh, Option.map_some',
        List.map_cons, List.sum_cons] at *
      rw [ht]

/-- Witness for C5 on the spec §8 scenario with both prices present. -/
theorem valuate_all_prices_available_witness :
    ([⟨"AAPL", 10, 100⟩, ⟨"TSLA", 5, 200⟩] : List Holding) ≠ [] ∧
    (valuate [⟨"AAPL", 10, 100⟩, ⟨"TSLA", 5, 200⟩]
        (fun s => some (if s = "AAPL" then 150 else 300))).total_value =
      (([⟨"AAPL", 10, 100⟩, ⟨"TSLA", 5, 200⟩] : List Holding).map
        (fun h => (if h.symbol = "AAPL" then (150 : ℚ) else 300) *
          h.quantity)).sum := by
  refine ⟨by decide, ?_⟩
  exact (valuate_all_prices_available
    [⟨"AAPL", 10, 100⟩, ⟨"TSLA", 5, 200⟩]
    (fun s => some (if s = "AAPL" then 150 else 300))
    (fun s => if s = "AAPL" then 150 else 300)
    (by decide) (by intro h hm; rfl)).1

/-- A holding with non-negative quantity and cost, against a lookup that
returns a negative price: refutes claim C7 as stated. -/
def negPriceLookup : String → Option ℚ := fun _ => some (-1)

/-- Counterexample to claim C7 as stated: with quantities and average costs
non-negative but a negative looked-up price, `total_value` is negative. -/
theorem valuate_negative_price_counterexample :
    (∀ h ∈ ([⟨"A", 1, 1⟩] : List Holding), 0 ≤ h.quantity ∧ 0 ≤ h.avg_cost) ∧
    (valuate [⟨"A", 1, 1⟩] negPriceLookup).total_value < 0 := by
  constructor
  · intro h hm; fin_cases hm <;> exact ⟨by norm_num, by norm_num⟩
  · show ((List.filterMap _ _).sum : ℚ) < 0
    norm_num [valuate, negPriceLookup, List.filterMap_cons]

/-- Claim C7 (amended): when quantities and average costs are non-negative
and every available price is non-negative, `total_value` and `total_cost`
are non-negative — for every holdings sequence, hence after any add, update
or remove. -/
theorem valuate_totals_nonneg (holdings : List Holding)
    (pl : String → Option ℚ)
    (hh : ∀ h ∈ holdings, 0 ≤ h.quantity ∧ 0 ≤ h.avg_cost)
    (hp : ∀ s q, pl s = some q → 0 ≤ q) :
    0 ≤ (valuate holdings pl).total_value ∧
    0 ≤ (valuate holdings pl).total_cost := by
  induction holdings with
  | nil => exact ⟨le_refl 0, le_refl 0⟩
  | cons h t ih =>
      have hmem := hh h (List.mem_cons_self h t)
      have iht := ih (fun x hx => hh x (List.mem_cons_of_mem h hx))
      constructor
      · show (0 : ℚ) ≤ (List.filterMap _ (h :: t)).sum
        rw [List.filterMap_cons]
        cases hcase : pl h.symbol with
        | none => exact iht.1
        | some p =>
            simp only [Option.map_some', List.sum_cons]
            exact add_nonneg (mul_nonneg (hp h.symbol p hcase) hmem.1) iht.1
      · show (0 : ℚ) ≤ (List.map _ (h :: t)).sum
        rw [List.map_cons, List.sum_cons]
        exact add_nonneg (mul_nonneg hmem.2 hmem.1) iht.2

/-- Witness for amended C7 on the spec §8 scenario. -/
theorem valuate_totals_nonneg_witness :
    0 ≤ (valuate [⟨"AAPL", 10, 100⟩, ⟨"TSLA", 5, 200⟩]
      (fun s => if s = "AAPL" then some 150 else none)).total_value ∧
    0 ≤ (valuate [⟨"AAPL", 10, 100⟩, ⟨"TSLA", 5, 200⟩]
      (fun s => if s = "AAPL" then some 150 else none)).total_cost := by
  exact valuate_totals_nonneg [⟨"AAPL", 10, 100⟩, ⟨"TSLA", 5, 200⟩]
    (fun s => if s = "AAPL" then some 150 else none)
    (by intro h hm; fin_cases hm <;> exact ⟨by norm_num, by norm_num⟩)
    (by intro s q hq
        by_cases hs : s = "AAPL"
        · simp [hs] at hq; rw [← hq]; norm_num
        · simp [hs] at hq)

/-- One row of a fetched price series, with the two columns `main()` reads
(`Open`, `Close`). -/
structure Bar where
  Open : ℚ
  Close : ℚ
  deriving Repr, DecidableEq

/-- Observable output of one dashboard widget: a metric
(value, change, optional exact change percentage), a warning notice, an
error notice, or a chart. -/
inductive RenderEvent where
  | metric (label : String) (value change : ℚ) (changePct : Option ℚ)
  | warning (msg : String)
  | errorNotice (msg : String)
  | chart
  deriving Repr, DecidableEq

/-- Warning text of `src/app.py` line 93 (ASCII transliteration). -/
def bistWarnMsg : String := "BIST 100 verisi alinamadi"

/-- Warning text of `src/app.py` line 113 (ASCII transliteration). -/
def spWarnMsg : String := "S&P 500 verisi alinamadi"

/-- Warning text of `src/app.py` line 154 (ASCII transliteration). -/
def searchWarnMsg : String := "Veri bulunamadi"

/-- Error text of `src/app.py` line 95 (ASCII transliteration). -/
def bistErrMsg (e : String) : String := "BIST 100 verisi alinirken hata: " ++ e

/-- Error text of `src/app.py` line 115 (ASCII transliteration). -/
def spErrMsg (e : String) : String := "S&P 500 verisi alinirken hata: " ++ e

/-- Error text of `src/app.py` line 156 (ASCII transliteration). -/
def searchErrMsg (e : String) : String :=
  "Hisse verisi alinirken hata: " ++ e

/-- Text of the Python `NameError` raised when `metric_col2` is read while
unbound (`src/app.py` line 106). -/
def nameErrorText : String := "name metric_col2 is not defined"

/-- BIST 100 widget, `src/app.py` lines 77-95: on a raised fetch error an
error notice; on an empty frame a warning; otherwise the two metric columns
are bound (line 85) and the BIST metric renders from the last row.  The
returned Bool records whether `metric_col2` got bound. -/
def renderBist (bist : Except String (List Bar)) : List RenderEvent × Bool :=
  match bist with
  | Except.error e => ([RenderEvent.errorNotice (bistErrMsg e)], false)
  | Except.ok data =>
      if h : data = [] then ([RenderEvent.warning bistWarnMsg], false)
      else
        let bar := data.getLast h
        ([RenderEvent.metric "BIST 100" bar.Close (bar.Close - bar.Open)
            (pctChange (bar.Close - bar.Open) bar.Open)], true)

/-- S&P 500 widget, `src/app.py` lines 98-115: on a raised fetch error an
error notice; on an empty frame a warning; on data, entering
`with metric_col2:` raises `NameError` if `metric_col2` is unbound, which the
`except` clause turns into an error notice; otherwise the metric renders. -/
def renderSp (sp : Except String (List Bar)) (col2Bound : Bool) :
    List RenderEvent :=
  match sp with
  | Except.error e => [RenderEvent.errorNotice (spErrMsg e)]
  | Except.ok data =>
      if h : data = [] then [RenderEvent.warning spWarnMsg]
      else if col2Bound then
        let bar := data.getLast h
        [RenderEvent.metric "S&P 500" bar.Close (bar.Close - bar.Open)
          (pctChange (bar.Close - bar.Open) bar.Open)]
      else [RenderEvent.errorNotice (spErrMsg nameErrorText)]

/-- The market-overview column (`col1`) of the dashboard: BIST widget, then
the S&P widget with the column binding produced by the BIST branch. -/
def renderCol1 (bist sp : Except String (List Bar)) : List RenderEvent :=
  (renderBist bist).1 ++ renderSp sp (renderBist bist).2

/-- `prev_price` of the symbol search, `src/app.py` line 128:
`Close.iloc[-2]` when the series has more than one row, else the latest
close itself. -/
def searchPrevPrice (data : List Bar) (current : ℚ) : ℚ :=
  if h : 1 < data.length then (data.get ⟨data.length - 2, by omega⟩).Close
  else current

/-- Python `str.upper()` on the searched symbol (`src/app.py` line 133),
modelled character by character. -/
def pyUpper (s : String) : String := ⟨s.data.map Char.toUpper⟩

/-- Symbol-search widget, `src/app.py` lines 123-156: error notice on a
raised error, warning on empty data, else a metric from the last close and
`prev_price`, followed by the mini chart. -/
def renderSearch (sym : String) (res : Except String (List Bar)) :
    List RenderEvent :=
  match res with
  | Except.error e => [RenderEvent.errorNotice (searchErrMsg e)]
  | Except.ok data =>
      if h : data = [] then [RenderEvent.warning searchWarnMsg]
      else
        let current := (data.getLast h).Close
        let prev := searchPrevPrice data current
        [RenderEvent.metric (pyUpper sym) current (current - prev)
            (pctChange (current - prev) prev),
          RenderEvent.chart]

/-- The whole dashboard pass of `main()`: market overview, then the optional
symbol search, then the rest of the page (portfolio summary, news, footer),
which renders unconditionally. -/
def renderDashboard (bist sp : Except String (List Bar))
    (searched : Option (String × Except String (List Bar)))
    (rest : List RenderEvent) : List RenderEvent :=
  renderCol1 bist sp ++
    (match searched with
     | none => []
     | some sr => renderSearch sr.1 sr.2) ++ rest

/-- Claim C6: for every fetch outcome, an empty series yields a non-fatal
warning notice, a raised error yields an error notice — the two are rendered
distinguishably — and in every case the rest of the page still renders. -/
theorem dashboard_empty_vs_error
    (bist sp sres : Except String (List Bar)) (sym : String)
    (rest : List RenderEvent) :
    (bist = Except.ok [] → RenderEvent.warning bistWarnMsg ∈
      renderDashboard bist sp (some (sym, sres)) rest) ∧
    (∀ e, bist = Except.error e → RenderEvent.errorNotice (bistErrMsg e) ∈
      renderDashboard bist sp (some (sym, sres)) rest) ∧
    (sp = Except.ok [] → RenderEvent.warning spWarnMsg ∈
      renderDashboard bist sp (some (sym, sres)) rest) ∧
    (∀ e, sp = Except.error e → RenderEvent.errorNotice (spErrMsg e) ∈
      renderDashboard bist sp (some (sym, sres)) rest) ∧
    (sres = Except.ok [] → RenderEvent.warning searchWarnMsg ∈
      renderDashboard bist sp (some (sym, sres)) rest) ∧
    (∀ e, sres = Except.error e → RenderEvent.errorNotice (searchErrMsg e) ∈
      renderDashboard bist sp (some (sym, sres)) rest) ∧
    (∀ ev ∈ rest, ev ∈ renderDashboard bist sp (some (sym, sres)) rest) := by
  refine ⟨fun h => ?_, fun e h => ?_, fun h => ?_, fun e h => ?_,
    fun h => ?_, fun e h => ?_, fun ev hev => ?_⟩ <;>
    (try subst h) <;>
    simp [renderDashboard, renderCol1, renderBist, renderSp, renderSearch,
      List.mem_append] <;> tauto

/-- Witness for C6: empty BIST data, a raised S&P error and empty search
data on one page, which still renders its tail. -/
theorem dashboard_empty_vs_error_witness :
    RenderEvent.warning bistWarnMsg ∈ renderDashboard (Except.ok [])
      (Except.error "boom") (some ("SPY", Except.ok [])) [RenderEvent.chart] ∧
    RenderEvent.errorNotice (spErrMsg "boom") ∈ renderDashboard (Except.ok [])
      (Except.error "boom") (some ("SPY", Except.ok [])) [RenderEvent.chart] ∧
    RenderEvent.warning searchWarnMsg ∈ renderDashboard (Except.ok [])
      (Except.error "boom") (some ("SPY", Except.ok [])) [RenderEvent.chart] ∧
    RenderEvent.chart ∈ renderDashboard (Except.ok [])
      (Except.error "boom") (some ("SPY", Except.ok [])) [RenderEvent.chart] := by
  have h := dashboard_empty_vs_error (Except.ok []) (Except.error "boom")
    (Except.ok []) "SPY" [RenderEvent.chart]
  exact ⟨h.1 rfl, h.2.2.2.1 "boom" rfl, h.2.2.2.2.1 rfl,
    h.2.2.2.2.2.2 RenderEvent.chart (List.mem_singleton.mpr rfl)⟩

/-- Whether a rendered event list contains the S&P 500 metric. -/
def hasSpMetric (evs : List RenderEvent) : Bool :=
  evs.any fun ev =>
    match ev with
    | RenderEvent.metric l _ _ _ => l = "S&P 500"
    | _ => false

/-- Claim C9: when the BIST 100 series is empty or its fetch raised,
`metric_col2` is never bound, so non-empty S&P 500 data produces the caught
`NameError` as an error notice and no S&P 500 metric; conversely the S&P 500
metric appears only when both fetches returned non-empty data. -/
theorem sp500_depends_on_bist (bist sp : Except String (List Bar)) :
    ((bist = Except.ok [] ∨ ∃ e, bist = Except.error e) →
      (∀ b t, sp = Except.ok (b :: t) →
        RenderEvent.errorNotice (spErrMsg nameErrorText) ∈ renderCol1 bist sp) ∧
      hasSpMetric (renderCol1 bist sp) = false) ∧
    (hasSpMetric (renderCol1 bist sp) = true →
      (∃ b t, bist = Except.ok (b :: t)) ∧ ∃ b t, sp = Except.ok (b :: t)) := by
  constructor
  · intro hb
    have hcol2 : (renderBist bist).2 = false := by
      rcases hb with h | ⟨e, h⟩ <;> subst h <;> simp [renderBist]
    constructor
    · intro b t hsp
      subst hsp
      have hr : renderSp (Except.ok (b :: t)) (renderBist bist).2 =
          [RenderEvent.errorNotice (spErrMsg nameErrorText)] := by
        rw [hcol2]; simp [renderSp]
      simp [renderCol1, hr, List.mem_append]
    · rcases hb with h | ⟨e, h⟩ <;> subst h <;>
        cases sp with
        | error e2 => simp [renderCol1, renderBist, renderSp, hasSpMetric]
        | ok data =>
            by_cases hd : data = [] <;>
              simp [renderCol1, renderBist, renderSp, hasSpMetric, hd]
  · intro hm
    cases bist with
    | error e =>
        exfalso
        cases sp with
        | error e2 =>
            simp [renderCol1, renderBist, renderSp, hasSpMetric] at hm
        | ok data =>
            by_cases hd : data = [] <;>
              simp [renderCol1, renderBist, renderSp, hasSpMetric, hd] at hm
    | ok bdata =>
        cases bdata with
        | nil =>
            exfalso
            cases sp with
            | error e2 =>
                simp [renderCol1, renderBist, renderSp, hasSpMetric] at hm
            | ok data =>
                by_cases hd : data = [] <;>
                  simp [renderCol1, renderBist, renderSp, hasSpMetric, hd] at hm
        | cons b t =>
            refine ⟨⟨b, t, rfl⟩, ?_⟩
            cases sp with
            | error e2 =>
                exfalso
                simp [renderCol1, renderBist, renderSp, hasSpMetric] at hm
            | ok sdata =>
                cases sdata with
                | nil =>
                    exfalso
                    simp [renderCol1, renderBist, renderSp, hasSpMetric] at hm
                | cons s st => exact ⟨s, st, rfl⟩

/-- Witness for C9: empty BIST data and non-empty S&P data yield the
`NameError` error notice and no S&P 500 metric. -/
theorem sp500_depends_on_bist_witness :
    RenderEvent.errorNotice (spErrMsg nameErrorText) ∈
      renderCol1 (Except.ok []) (Except.ok [⟨1, 2⟩]) ∧
    hasSpMetric (renderCol1 (Except.ok []) (Except.ok [⟨1, 2⟩])) = false := by
  have h := (sp500_depends_on_bist (Except.ok [])
    (Except.ok [⟨1, 2⟩])).1 (Or.inl rfl)
  exact ⟨h.1 ⟨1, 2⟩ [] rfl, h.2⟩

/-- A single fetched row whose close is zero. -/
def zeroBar : Bar := ⟨0, 0⟩

/-- Counterexample to claim C10 as stated: on a one-row series whose close
is `0`, the displayed change is `0` but the change percentage is the
division `0/0`, which is not the exact value `0` (the metric carries no
exact percentage). -/
theorem single_row_zero_close_counterexample :
    renderSearch "X" (Except.ok [zeroBar]) =
      [RenderEvent.metric (pyUpper "X") 0 0 none, RenderEvent.chart] ∧
    RenderEvent.metric (pyUpper "X") 0 0 none ≠
      RenderEvent.metric (pyUpper "X") 0 0 (some 0) := by
  constructor
  · simp [renderSearch, searchPrevPrice, pctChange, zeroBar,
      List.getLast_singleton]
  · simp

/-- Claim C10 (amended): on a one-row series the previous price is the
latest close itself, the displayed change is exactly `0`, and when that
close is nonzero the change percentage is exactly `0` (no zero-reference
division). -/
theorem single_row_change_zero (b : Bar) (sym : String)
    (h : b.Close ≠ 0) :
    searchPrevPrice [b] b.Close = b.Close ∧
    renderSearch sym (Except.ok [b]) =
      [RenderEvent.metric (pyUpper sym) b.Close 0 (some 0),
        RenderEvent.chart] := by
  have hprev : searchPrevPrice [b] b.Close = b.Close := by
    simp [searchPrevPrice]
  refine ⟨hprev, ?_⟩
  simp [renderSearch, hprev, pctChange, sub_self, h, zero_div, zero_mul]

/-- Witness for amended C10 on the row `{Open = 3, Close = 5}`. -/
theorem single_row_change_zero_witness :
    ((⟨3, 5⟩ : Bar).Close ≠ 0) ∧
    renderSearch "spy" (Except.ok [⟨3, 5⟩]) =
      [RenderEvent.metric (pyUpper "spy") 5 0 (some 0), RenderEvent.chart] := by
  refine ⟨by norm_num, ?_⟩
  exact (single_row_change_zero ⟨3, 5⟩ "spy" (by norm_num)).2

/-- One row of the portfolio table returned by
`db_manager.get_user_portfolio` (`src/app.py` lines 40-46). -/
structure PortfolioRow where
  symbol : String
  quantity : ℚ
  avg_cost : ℚ
  target_quantity : Option ℚ
  date_added : String
  deriving Repr, DecidableEq

/-- The per-symbol record stored in `st.session_state.portfolio`
(`src/app.py` lines 41-46). -/
structure PortfolioEntry where
  quantity : ℚ
  avg_cost : ℚ
  target_quantity : Option ℚ
  date_added : String
  deriving Repr, DecidableEq

/-- The record built from a row at `src/app.py` lines 41-46. -/
def entryOf (r : PortfolioRow) : PortfolioEntry :=
  ⟨r.quantity, r.avg_cost, r.target_quantity, r.date_added⟩

/-- Python dict assignment `d[k] = v`: the value at an existing key is
replaced in place, a new key is appended at the end (insertion order kept). -/
def dictInsert : List (String × PortfolioEntry) → String → PortfolioEntry →
    List (String × PortfolioEntry)
  | [], k, v => [(k, v)]
  | kv :: rest, k, v =>
      if kv.1 = k then (k, v) :: rest else kv :: dictInsert rest k v

/-- Python dict read `d[k]` (first entry with the key, `None` if absent). -/
def dictLookup (d : List (String × PortfolioEntry)) (k : String) :
    Option PortfolioEntry :=
  match d with
  | [] => none
  | kv :: rest => if kv.1 = k then some kv.2 else dictLookup rest k

/-- One iteration of the row loop at `src/app.py` lines 40-46:
`st.session_state.portfolio[row.symbol] = {...}`. -/
def portfolioStep (d : List (String × PortfolioEntry)) (row : PortfolioRow) :
    List (String × PortfolioEntry) :=
  dictInsert d row.symbol (entryOf row)

/-- Loading the user portfolio, `src/app.py` lines 39-46: start from the
empty dict and assign one entry per row, keyed by symbol. -/
def loadPortfolio (rows : List PortfolioRow) :
    List (String × PortfolioEntry) :=
  rows.foldl portfolioStep []

/-- The last row of the sequence carrying the given symbol, if any. -/
def lastRowFor (s : String) : List PortfolioRow → Option PortfolioRow
  | [] => none
  | r :: rest =>
      match lastRowFor s rest with
      | some r2 => some r2
      | none => if r.symbol = s then some r else none

lemma dictInsert_keys (d : List (String × PortfolioEntry)) (k : String)
    (v : PortfolioEntry) :
    (dictInsert d k v).map Prod.fst =
      if k ∈ d.map Prod.fst then d.map Prod.fst
      else d.map Prod.fst ++ [k] := by
  induction d with
  | nil => simp [dictInsert]
  | cons kv rest ih =>
      by_cases h : kv.1 = k
      · simp [dictInsert, h]
      · have hkk : ¬ k = kv.1 := fun he => h he.symm
        simp only [dictInsert, if_neg h, List.map_cons, ih, List.mem_cons]
        by_cases hm : k ∈ rest.map Prod.fst
        · simp [hm]
        · simp [hm, hkk]

lemma dictInsert_lookup (d : List (String × PortfolioEntry)) (k k' : String)
    (v : PortfolioEntry) :
    dictLookup (dictInsert d k v) k' =
      if k' = k then some v else dictLookup d k' := by
  induction d with
  | nil =>
      simp only [dictInsert, dictLookup]
      by_cases h : k' = k
      · simp [h]
      · have h' : ¬ k = k' := fun he => h he.symm
        simp [h, h']
  | cons kv rest ih =>
      by_cases h : kv.1 = k
      · subst h
        simp only [dictInsert, if_pos rfl, dictLookup]
        by_cases h2 : k' = kv.1
        · simp [h2]
        · have h2' : ¬ kv.1 = k' := fun he => h2 he.symm
          simp [h2, h2']
      · simp only [dictInsert, if_neg h, dictLookup]
        by_cases h2 : kv.1 = k'
        · have hne : ¬ k' = k := fun he => h (h2.trans he)
          simp [h2, hne]
        · simp [h2, ih]

lemma dictInsert_keys_nodup (d : List (String × PortfolioEntry))
    (k : String) (v : PortfolioEntry) (hd : (d.map Prod.fst).Nodup) :
    ((dictInsert d k v).map Prod.fst).Nodup := by
  rw [dictInsert_keys]
  by_cases hm : k ∈ d.map Prod.fst
  · simpa [hm] using hd
  · rw [if_neg hm, List.nodup_append]
    refine ⟨hd, List.nodup_singleton k, ?_⟩
    intro a ha hk
    rw [List.mem_singleton] at hk
    exact hm (hk ▸ ha)

lemma dictInsert_keys_toFinset (d : List (String × PortfolioEntry))
    (k : String) (v : PortfolioEntry) :
    ((dictInsert d k v).map Prod.fst).toFinset =
      insert k (d.map Prod.fst).toFinset := by
  rw [dictInsert_keys]
  by_cases hm : k ∈ d.map Prod.fst
  · rw [if_pos hm, Finset.insert_eq_self.mpr (List.mem_toFinset.mpr hm)]
  · rw [if_neg hm]
    ext a
    simp [List.mem_toFinset, or_comm]

lemma foldl_portfolioStep_nodup (rows : List PortfolioRow)
    (d : List (String × PortfolioEntry)) (hd : (d.map Prod.fst).Nodup) :
    ((rows.foldl portfolioStep d).map Prod.fst).Nodup := by
  induction rows generalizing d with
  | nil => simpa using hd
  | cons r rest ih =>
      exact ih (portfolioStep d r) (dictInsert_keys_nodup d r.symbol _ hd)

lemma foldl_portfolioStep_toFinset (rows : List PortfolioRow)
    (d : List (String × PortfolioEntry)) :
    ((rows.foldl portfolioStep d).map Prod.fst).toFinset =
      (d.map Prod.fst).toFinset ∪ (rows.map PortfolioRow.symbol).toFinset := by
  induction rows generalizing d with
  | nil => simp
  | cons r rest ih =>
      rw [List.foldl_cons, ih (portfolioStep d r)]
      show ((dictInsert d r.symbol (entryOf r)).map Prod.fst).toFinset ∪ _ = _
      rw [dictInsert_keys_toFinset]
      ext a
      simp only [Finset.mem_union, Finset.mem_insert, List.mem_toFinset,
        List.map_cons, List.toFinset_cons]
      tauto

lemma foldl_portfolioStep_lookup (rows : List PortfolioRow)
    (d : List (String × PortfolioEntry)) (s : String) :
    dictLookup (rows.foldl portfolioStep d) s =
      match lastRowFor s rows with
      | some r => some (entryOf r)
      | none => dictLookup d s := by
  induction rows generalizing d with
  | nil => simp [lastRowFor]
  | cons r rest ih =>
      rw [List.foldl_cons, ih (portfolioStep d r)]
      show _ = (match lastRowFor s (r :: rest) with
        | some r2 => some (entryOf r2)
        | none => dictLookup d s)
      cases hlast : lastRowFor s rest with
      | some r2 => simp [lastRowFor, hlast]
      | none =>
          simp only [lastRowFor, hlast]
          show dictLookup (dictInsert d r.symbol (entryOf r)) s = _
          rw [dictInsert_lookup]
          by_cases h : s = r.symbol
          · subst h
            simp
          · have h' : ¬ r.symbol = s := fun he => h he.symm
            simp [h, h']

/-- Claim C8: the loaded in-memory portfolio has at most one entry per
symbol (its key list has no duplicates), a symbol maps to the entry of the
last store row carrying it, and the displayed holdings count — the dict
size — equals the number of distinct symbols among the rows. -/
theorem portfolio_unique_per_symbol (rows : List PortfolioRow) :
    ((loadPortfolio rows).map Prod.fst).Nodup ∧
    (∀ s, dictLookup (loadPortfolio rows) s =
      (lastRowFor s rows).map entryOf) ∧
    (loadPortfolio rows).length =
      (rows.map PortfolioRow.symbol).dedup.length := by
  have hnodup : ((loadPortfolio rows).map Prod.fst).Nodup :=
    foldl_portfolioStep_nodup rows [] (by simp)
  refine ⟨hnodup, fun s => ?_, ?_⟩
  · rw [loadPortfolio, foldl_portfolioStep_lookup]
    cases lastRowFor s rows <;> simp [dictLookup]
  · have hfin : ((loadPortfolio rows).map Prod.fst).toFinset =
        (rows.map PortfolioRow.symbol).toFinset := by
      rw [loadPortfolio, foldl_portfolioStep_toFinset]
      simp
    calc (loadPortfolio rows).length
        = ((loadPortfolio rows).map Prod.fst).length := by
          rw [List.length_map]
      _ = ((loadPortfolio rows).map Prod.fst).toFinset.card :=
          (List.toFinset_card_of_nodup hnodup).symm
      _ = (rows.map PortfolioRow.symbol).toFinset.card := by rw [hfin]
      _ = (rows.map PortfolioRow.symbol).dedup.length :=
          List.card_toFinset _
